import Mathlib

/-!
Verification of the explore-rust chat-completion client library.

The embedding translates src/config.rs, src/models.rs, src/error.rs and the
request / stream-decoding logic of src/lib.rs into Lean. Strings are modelled
as lists of characters, f32 sampling parameters as rationals, u32 counters as
naturals. serde_json parsing and the derived serde encoders and decoders are
modelled by an explicit JSON value type, a recursive-descent parser and
field-by-field decoders that follow the derive semantics of the Rust structs
(Option fields tolerate absence and null, remaining fields are required,
unknown fields are ignored, the stop field is skipped when absent).
-/

set_option maxRecDepth 65536

/-- JSON value tree, the image of serde_json values. -/
inductive Json where
  | null
  | bool (b : Bool)
  | num (q : ℚ)
  | str (s : List Char)
  | arr (elems : List Json)
  | obj (members : List (List Char × Json))

/-- Whitespace recognised by the JSON grammar. -/
def isWs (c : Char) : Bool := [' ', '\n', '\t', '\r'].contains c

/-- Drop leading JSON whitespace. -/
def skipWs (s : List Char) : List Char :=
  match s with
  | c :: cs => if isWs c then skipWs cs else s
  | [] => []

/-- Simple escape characters in JSON string literals. -/
def escSimple (c : Char) : Option Char :=
  if c = '"' ∨ c = '\\' ∨ c = '/' then some c
  else if c = 'n' then some '\n'
  else if c = 't' then some '\t'
  else if c = 'r' then some '\r'
  else if c = 'b' then some (Char.ofNat 8)
  else if c = 'f' then some (Char.ofNat 12)
  else none

/-- Value of one hexadecimal digit. -/
def hexVal (c : Char) : Option Nat :=
  let n := c.toNat
  if c.isDigit then some (n - 48)
  else if c ≥ 'a' ∧ c ≤ 'f' then some (n - 87)
  else if c ≥ 'A' ∧ c ≤ 'F' then some (n - 55)
  else none

/-- Parse the body of a JSON string literal after the opening quote,
returning the decoded characters and the input after the closing quote. -/
def parseStringBody : List Char → Option (List Char × List Char)
  | [] => none
  | '"' :: rest => some ([], rest)
  | '\\' :: 'u' :: h1 :: h2 :: h3 :: h4 :: rest =>
    match hexVal h1, hexVal h2, hexVal h3, hexVal h4 with
    | some a, some b, some c, some d =>
      (parseStringBody rest).map fun p =>
        (Char.ofNat (((a * 16 + b) * 16 + c) * 16 + d) :: p.1, p.2)
    | _, _, _, _ => none
  | '\\' :: e :: rest =>
    match escSimple e with
    | some c => (parseStringBody rest).map fun p => (c :: p.1, p.2)
    | none => none
  | c :: rest => (parseStringBody rest).map fun p => (c :: p.1, p.2)

/-- Take the maximal run of decimal digits from the front of the input. -/
def takeDigits (s : List Char) : List Char × List Char :=
  match s with
  | c :: cs =>
    if c.isDigit then
      let q := takeDigits cs
      (c :: q.1, q.2)
    else ([], s)
  | [] => ([], [])

/-- Numeric value of a digit run. -/
def digitsToNat (ds : List Char) : Nat :=
  ds.foldl (fun a c => a * 10 + (c.toNat - 48)) 0

/-- Parse the signed digits of an exponent part. -/
def parseExpTail (r : List Char) : Option (Int × List Char) :=
  let p : Int × List Char :=
    if r.head? = some '+' then (1, r.tail)
    else if r.head? = some '-' then (-1, r.tail)
    else (1, r)
  match takeDigits p.2 with
  | ([], _) => none
  | (ds, r2) => some (p.1 * (digitsToNat ds : Int), r2)

/-- Parse an optional exponent part, defaulting to exponent zero. -/
def parseExpPart : List Char → Option (Int × List Char)
  | 'e' :: r => parseExpTail r
  | 'E' :: r => parseExpTail r
  | s => some (0, s)

/-- Assemble the exact rational value of a JSON number from sign, integer
digits, fraction digits and exponent. Built from integer arithmetic and
Rat.divInt only, which keeps every use kernel-computable. -/
def mkNumQ (neg : Bool) (ids fds : List Char) (e : Int) : ℚ :=
  let mAbs : Int := (digitsToNat (ids ++ fds) : Int)
  let m : Int := if neg then -mAbs else mAbs
  let eAdj : Int := e - (fds.length : Int)
  if 0 ≤ eAdj then Rat.divInt (m * (10 : Int) ^ eAdj.toNat) 1
  else Rat.divInt m ((10 : Int) ^ (-eAdj).toNat)

/-- Parse a JSON number. Leading zeros are rejected as in the JSON grammar. -/
def parseNum (s : List Char) : Option (ℚ × List Char) :=
  let p : Bool × List Char :=
    if s.head? = some '-' then (true, s.tail) else (false, s)
  match takeDigits p.2 with
  | ([], _) => none
  | (ids, s2) =>
    if 1 < ids.length ∧ ids.head? = some '0' then none
    else
      match s2 with
      | '.' :: r =>
        match takeDigits r with
        | ([], _) => none
        | (fds, s3) =>
          (parseExpPart s3).map fun q => (mkNumQ p.1 ids fds q.1, q.2)
      | _ =>
        (parseExpPart s2).map fun q => (mkNumQ p.1 ids [] q.1, q.2)

mutual

/-- Recursive-descent JSON value parser, fuel-indexed so that every use is
kernel-computable. -/
def parseVal : Nat → List Char → Option (Json × List Char)
  | 0, _ => none
  | fuel+1, s =>
    match skipWs s with
    | '\x7b' :: rest =>
      match skipWs rest with
      | '\x7d' :: r2 => some (.obj [], r2)
      | r2 => (parseMembers fuel r2).map fun p => (.obj p.1, p.2)
    | '[' :: rest =>
      match skipWs rest with
      | ']' :: r2 => some (.arr [], r2)
      | r2 => (parseElems fuel r2).map fun p => (.arr p.1, p.2)
    | '"' :: rest => (parseStringBody rest).map fun p => (.str p.1, p.2)
    | s1 =>
      if ("true").data.isPrefixOf s1 then some (.bool true, s1.drop 4)
      else if ("false").data.isPrefixOf s1 then some (.bool false, s1.drop 5)
      else if ("null").data.isPrefixOf s1 then some (.null, s1.drop 4)
      else (parseNum s1).map fun p => (.num p.1, p.2)

/-- Parse the elements of a non-empty JSON array after the opening bracket. -/
def parseElems : Nat → List Char → Option (List Json × List Char)
  | 0, _ => none
  | fuel+1, s =>
    match parseVal fuel s with
    | none => none
    | some (v, r) =>
      match skipWs r with
      | ',' :: r2 => (parseElems fuel r2).map fun p => (v :: p.1, p.2)
      | ']' :: r2 => some ([v], r2)
      | _ => none

/-- Parse the members of a non-empty JSON object after the opening brace. -/
def parseMembers : Nat → List Char → Option (List (List Char × Json) × List Char)
  | 0, _ => none
  | fuel+1, s =>
    match skipWs s with
    | '"' :: rest =>
      match parseStringBody rest with
      | none => none
      | some (k, r) =>
        match skipWs r with
        | ':' :: r2 =>
          match parseVal fuel r2 with
          | none => none
          | some (v, r3) =>
            match skipWs r3 with
            | ',' :: r4 => (parseMembers fuel r4).map fun p => ((k, v) :: p.1, p.2)
            | '\x7d' :: r4 => some ([(k, v)], r4)
            | _ => none
        | _ => none
    | _ => none

end

/-- Parse a complete JSON document: one value followed only by whitespace. -/
def parseJson (s : List Char) : Option Json :=
  match parseVal (2 * s.length + 2) s with
  | some (v, r) => if skipWs r = [] then some v else none
  | none => none

/-- Error type of src/error.rs. Wrapped external errors are carried as their
display text. -/
inductive GptError where
  | RequestError (msg : List Char)
  | HeaderError (msg : List Char)
  | ApiError (status_code : Nat) (message : List Char)
  | ParseError (msg : List Char)
  | ConfigError (msg : List Char)
deriving Repr, DecidableEq

/-- Outbound chat message, src/models.rs Message. -/
structure Message where
  role : List Char
  content : List Char
deriving Repr, DecidableEq

/-- Outbound request body, src/models.rs GptRequest. -/
structure GptRequest where
  messages : List Message
  temperature : ℚ
  max_tokens : Nat
  top_p : ℚ
  frequency_penalty : ℚ
  presence_penalty : ℚ
  stop : Option (List (List Char))
  stream : Bool
deriving Repr, DecidableEq

/-- A partial update received in streaming mode, src/models.rs Delta. -/
structure Delta where
  content : Option (List Char)
  role : Option (List Char)
deriving Repr, DecidableEq

/-- A complete message of a non-streaming response, src/models.rs
ResponseMessage. -/
structure ResponseMessage where
  content : List Char
  role : Option (List Char)
deriving Repr, DecidableEq

/-- One choice of a response, src/models.rs Choice. The index field is a
required i32. -/
structure Choice where
  message : Option ResponseMessage
  delta : Option Delta
  finish_reason : Option (List Char)
  index : Int
deriving Repr, DecidableEq

/-- Inbound response body, src/models.rs GptResponse. -/
structure GptResponse where
  id : Option (List Char)
  choices : List Choice
deriving Repr, DecidableEq

/-- Serialization of a Message following its serde derive. -/
def Message.toJson (m : Message) : Json :=
  .obj [(("role").data, .str m.role), (("content").data, .str m.content)]

/-- Serialization of a GptRequest following its serde derive: fields in
declaration order, the stop field skipped entirely when it is none. -/
def GptRequest.toJson (r : GptRequest) : Json :=
  .obj ([(("messages").data, .arr (r.messages.map Message.toJson)),
         (("temperature").data, .num r.temperature),
         (("max_tokens").data, .num (r.max_tokens : ℚ)),
         (("top_p").data, .num r.top_p),
         (("frequency_penalty").data, .num r.frequency_penalty),
         (("presence_penalty").data, .num r.presence_penalty)] ++
        (match r.stop with
         | none => []
         | some ss => [(("stop").data, .arr (ss.map Json.str))]) ++
        [(("stream").data, .bool r.stream)])

/-- Lookup of an object member by key, first match wins. -/
def jLookup (k : List Char) : List (List Char × Json) → Option Json
  | [] => none
  | kv :: rest => if kv.1 = k then some kv.2 else jLookup k rest

/-- Decode a JSON string value. -/
def decodeStr : Json → Except (List Char) (List Char)
  | .str s => .ok s
  | _ => .error ("expected string").data

/-- Decode a JSON number as an i32 value. -/
def decodeInt : Json → Except (List Char) Int
  | .num q =>
    if q.den = 1 ∧ -(2 ^ 31 : Int) ≤ q.num ∧ q.num < 2 ^ 31 then .ok q.num
    else .error ("invalid integer").data
  | _ => .error ("expected integer").data

/-- Decode an optional struct field: absent and null both give none, as for a
serde Option field. -/
def optField (kvs : List (List Char × Json)) (k : List Char)
    (dec : Json → Except (List Char) α) : Except (List Char) (Option α) :=
  match jLookup k kvs with
  | none => .ok none
  | some v =>
    match v with
    | .null => .ok none
    | _ => (dec v).map some

/-- Decode a required struct field: absence is a decode error, as for a
non-Option serde field. -/
def reqField (kvs : List (List Char × Json)) (k : List Char)
    (dec : Json → Except (List Char) α) : Except (List Char) α :=
  match jLookup k kvs with
  | none => .error (("missing field ").data ++ k)
  | some v => dec v

/-- Decode a Delta per its serde derive. -/
def decodeDelta : Json → Except (List Char) Delta
  | .obj kvs => do
    let c ← optField kvs ("content").data decodeStr
    let r ← optField kvs ("role").data decodeStr
    pure ⟨c, r⟩
  | _ => .error ("expected object").data

/-- Decode a ResponseMessage per its serde derive. -/
def decodeResponseMessage : Json → Except (List Char) ResponseMessage
  | .obj kvs => do
    let c ← reqField kvs ("content").data decodeStr
    let r ← optField kvs ("role").data decodeStr
    pure ⟨c, r⟩
  | _ => .error ("expected object").data

/-- Decode a Choice per its serde derive: message, delta and finish_reason are
optional, index is required. -/
def decodeChoice : Json → Except (List Char) Choice
  | .obj kvs => do
    let m ← optField kvs ("message").data decodeResponseMessage
    let d ← optField kvs ("delta").data decodeDelta
    let f ← optField kvs ("finish_reason").data decodeStr
    let i ← reqField kvs ("index").data decodeInt
    pure ⟨m, d, f, i⟩
  | _ => .error ("expected object").data

/-- Decode the choices array. -/
def decodeChoices : Json → Except (List Char) (List Choice)
  | .arr xs => xs.mapM decodeChoice
  | _ => .error ("expected array").data

/-- Decode a GptResponse per its serde derive. -/
def decodeGptResponse : Json → Except (List Char) GptResponse
  | .obj kvs => do
    let i ← optField kvs ("id").data decodeStr
    let cs ← reqField kvs ("choices").data decodeChoices
    pure ⟨i, cs⟩
  | _ => .error ("expected object").data

/-- The behaviour of serde_json from_str for GptResponse: parse the document,
then decode the shape. -/
def gptResponseFromStr (s : List Char) : Except (List Char) GptResponse :=
  match parseJson s with
  | none => .error ("invalid JSON").data
  | some j => decodeGptResponse j

/-- Saturating clamp as performed by f32 clamp in the setters of
src/config.rs. -/
def clampQ (x lo hi : ℚ) : ℚ := max lo (min x hi)

/-- Generation configuration, src/config.rs GptConfig. -/
structure GptConfig where
  temperature : ℚ
  max_tokens : Nat
  top_p : ℚ
  frequency_penalty : ℚ
  presence_penalty : ℚ
  stop : Option (List (List Char))
deriving Repr, DecidableEq

/-- Default configuration, the Default impl of GptConfig. -/
def GptConfig.default : GptConfig :=
  ⟨Rat.divInt 7 10, 800, Rat.divInt 95 100, 0, 0, none⟩

/-- Configuration builder, src/config.rs GptConfigBuilder. The primed names
are the private builder fields; the unprimed functions below are its setter
methods. -/
structure GptConfigBuilder where
  temperature' : Option ℚ
  max_tokens' : Option Nat
  top_p' : Option ℚ
  frequency_penalty' : Option ℚ
  presence_penalty' : Option ℚ
  stop' : Option (List (List Char))
deriving Repr, DecidableEq

/-- The Default impl of GptConfigBuilder: every field unset. -/
def GptConfigBuilder.default : GptConfigBuilder :=
  ⟨none, none, none, none, none, none⟩

/-- GptConfig builder entry point. -/
def GptConfig.builder : GptConfigBuilder := GptConfigBuilder.default

/-- Setter temperature: clamps to the range 0.0 to 2.0. -/
def GptConfigBuilder.temperature (b : GptConfigBuilder) (temp : ℚ) : GptConfigBuilder :=
  { b with temperature' := some (clampQ temp 0 2) }

/-- Setter max_tokens: stores the raw value, no clamping in the source. -/
def GptConfigBuilder.max_tokens (b : GptConfigBuilder) (tokens : Nat) : GptConfigBuilder :=
  { b with max_tokens' := some tokens }

/-- Setter top_p: clamps to the range 0.0 to 1.0. -/
def GptConfigBuilder.top_p (b : GptConfigBuilder) (tp : ℚ) : GptConfigBuilder :=
  { b with top_p' := some (clampQ tp 0 1) }

/-- Setter frequency_penalty: clamps to the range -2.0 to 2.0. -/
def GptConfigBuilder.frequency_penalty (b : GptConfigBuilder) (penalty : ℚ) : GptConfigBuilder :=
  { b with frequency_penalty' := some (clampQ penalty (-2) 2) }

/-- Setter presence_penalty: clamps to the range -2.0 to 2.0. -/
def GptConfigBuilder.presence_penalty (b : GptConfigBuilder) (penalty : ℚ) : GptConfigBuilder :=
  { b with presence_penalty' := some (clampQ penalty (-2) 2) }

/-- Setter stop: stores the stop sequences. -/
def GptConfigBuilder.stop (b : GptConfigBuilder) (stop : List (List Char)) : GptConfigBuilder :=
  { b with stop' := some stop }

/-- Builder build: unset fields fall back to the defaults. -/
def GptConfigBuilder.build (b : GptConfigBuilder) : GptConfig :=
  let d := GptConfig.default
  ⟨b.temperature'.getD d.temperature,
   b.max_tokens'.getD d.max_tokens,
   b.top_p'.getD d.top_p,
   b.frequency_penalty'.getD d.frequency_penalty,
   b.presence_penalty'.getD d.presence_penalty,
   b.stop'⟩

/-- The client, src/lib.rs GptClient, without the connection-pool handle. -/
structure GptClient where
  api_url : List Char
  api_key : List Char
  config : GptConfig
deriving Repr, DecidableEq

/-- Client builder, src/lib.rs GptClientBuilder. Primed names are the
private fields, the unprimed functions are its setter methods. -/
structure GptClientBuilder where
  api_url' : Option (List Char)
  api_key' : Option (List Char)
  config' : Option GptConfig
deriving Repr, DecidableEq

/-- Client builder entry point. -/
def GptClient.builder : GptClientBuilder := ⟨none, none, none⟩

/-- Setter api_url. -/
def GptClientBuilder.api_url (b : GptClientBuilder) (url : List Char) : GptClientBuilder :=
  { b with api_url' := some url }

/-- Setter api_key. -/
def GptClientBuilder.api_key (b : GptClientBuilder) (key : List Char) : GptClientBuilder :=
  { b with api_key' := some key }

/-- Setter config. -/
def GptClientBuilder.config (b : GptClientBuilder) (config : GptConfig) : GptClientBuilder :=
  { b with config' := some config }

/-- Client build: URL and key are required, configuration falls back to the
default. -/
def GptClientBuilder.build (b : GptClientBuilder) : Except GptError GptClient :=
  match b.api_url' with
  | none => .error (.ConfigError ("API URL is required").data)
  | some url =>
    match b.api_key' with
    | none => .error (.ConfigError ("API key is required").data)
    | some key => .ok ⟨url, key, b.config'.getD GptConfig.default⟩

/-- Request-body assembly, GptClient build_request: one user message plus the
configuration fields, stream initially false. -/
def GptClient.build_request (c : GptClient) (message : List Char) : GptRequest :=
  ⟨[⟨("user").data, message⟩],
   c.config.temperature,
   c.config.max_tokens,
   c.config.top_p,
   c.config.frequency_penalty,
   c.config.presence_penalty,
   c.config.stop,
   false⟩

/-- The response-handling path of GptClient ask, parameterised by the HTTP
status and body the endpoint answers with. Non-2xx statuses become ApiError;
2xx bodies are decoded as GptResponse, and the content of the first choice's
message is extracted, a ParseError otherwise. -/
def GptClient.ask (c : GptClient) (message : List Char) (status : Nat)
    (body : List Char) : Except GptError (List Char) :=
  let _req := c.build_request message
  if 200 ≤ status ∧ status ≤ 299 then
    match gptResponseFromStr body with
    | .error e => .error (.ParseError e)
    | .ok r =>
      match r.choices.head?.bind (fun choice => choice.message.map (fun msg => msg.content)) with
      | some content => .ok content
      | none => .error (.ParseError ("No response content available").data)
  else
    .error (.ApiError status body)

/-- The SSE data-frame marker stripped by the decoder. -/
def dataPfx : List Char := ("data: ").data

/-- The end-of-stream sentinel payload. -/
def doneChars : List Char := ("[DONE]").data

/-- Text of one complete SSE data frame: marker, payload, blank-line
terminator. -/
def mkFrame (d : List Char) : List Char :=
  dataPfx ++ d ++ ('\n' :: '\n' :: [])

/-- Find the first double-newline terminator: split the buffer into the text
before it and the text after it, as buffer.find of the Rust loop does. -/
def findSplit2 : List Char → Option (List Char × List Char)
  | [] => none
  | c :: cs =>
    if c = '\n' ∧ cs.head? = some '\n' then some ([], cs.tail)
    else (findSplit2 cs).map fun p => (c :: p.1, p.2)

/-- Fuel-indexed repeated stripping of the data marker, the behaviour of
trim_start_matches. -/
def trimGo : Nat → List Char → List Char
  | 0, s => s
  | fuel+1, s => if dataPfx.isPrefixOf s then trimGo fuel (s.drop 6) else s

/-- Strip every leading repetition of the data marker. -/
def trimData (s : List Char) : List Char := trimGo s.length s

/-- Items the decoder task sends into the consumer channel for one extracted
frame payload: a ParseError on decode failure, the delta content of the first
choice when it is present and non-empty, and nothing otherwise. -/
def frameOut (d : List Char) : List (Except GptError (List Char)) :=
  match gptResponseFromStr d with
  | .error e => [Except.error (GptError.ParseError e)]
  | .ok r =>
    match r.choices.head? with
    | none => []
    | some choice =>
      match choice.delta with
      | none => []
      | some delta =>
        match delta.content with
        | none => []
        | some content => if content = [] then [] else [Except.ok content]

/-- Decidable equality for Except values, needed to evaluate concrete decoder
outputs. -/
instance {ε α : Type} [DecidableEq ε] [DecidableEq α] : DecidableEq (Except ε α) := fun x y =>
  match x, y with
  | .error a, .error b =>
    match decEq a b with
    | isTrue h => isTrue (h ▸ rfl)
    | isFalse h => isFalse fun hh => h (Except.error.inj hh)
  | .ok a, .ok b =>
    match decEq a b with
    | isTrue h => isTrue (h ▸ rfl)
    | isFalse h => isFalse fun hh => h (Except.ok.inj hh)
  | .error _, .ok _ => isFalse fun hh => Except.noConfusion hh
  | .ok _, .error _ => isFalse fun hh => Except.noConfusion hh

/-- Result of one pass of the inner frame-scanning while loop: the items sent,
the buffer that remains, and whether the sentinel was seen (the loop breaks
there). -/
structure ScanResult where
  outs : List (Except GptError (List Char))
  rest : List Char
  sawDone : Bool
deriving Repr, DecidableEq

/-- Fuel-indexed frame-scanning loop over the buffer. Extracts one frame per
double newline; non-data frames are ignored, the sentinel frame breaks the
loop with the buffer already advanced past it, other data frames contribute
their frameOut items. -/
def scanGo : Nat → List Char → ScanResult
  | 0, buf => ⟨[], buf, false⟩
  | fuel+1, buf =>
    match findSplit2 buf with
    | none => ⟨[], buf, false⟩
    | some (msg, r) =>
      if dataPfx.isPrefixOf msg then
        let d := trimData msg
        if d = doneChars then ⟨[], r, true⟩
        else
          let s := scanGo fuel r
          ⟨frameOut d ++ s.outs, s.rest, s.sawDone⟩
      else scanGo fuel r

/-- One pass of the frame-scanning loop, with enough fuel for the buffer. -/
def scanBuffer (buf : List Char) : ScanResult := scanGo buf.length buf

/-- The decoder task of ask_stream over a list of received body chunks:
append each chunk to the buffer, scan the buffer for complete frames, and
concatenate everything sent to the channel. A sentinel break only ends the
scan of the current chunk; the outer loop continues with the next chunk and
rescans the remaining buffer. -/
def runChunks (buf : List Char) : List (List Char) → List (Except GptError (List Char))
  | [] => []
  | c :: cs =>
    let s := scanBuffer (buf ++ c)
    s.outs ++ runChunks s.rest cs

/-- Delta content of the first choice of a decoded response, the chain the
decoder task inspects before emitting. -/
def deltaContent (r : GptResponse) : Option (List Char) :=
  (r.choices.head?.bind Choice.delta).bind Delta.content

/-- A well-formed non-sentinel data-frame payload carrying non-empty delta
content c: single-line, not itself marker-prefixed, not the sentinel, and
decoding to a response whose first choice holds the non-empty content c. -/
def goodFrame (d c : List Char) : Prop :=
  (∀ x ∈ d, x ≠ '\n') ∧ dataPfx.isPrefixOf d = false ∧ d ≠ doneChars ∧
  (gptResponseFromStr d).toOption.bind deltaContent = some c ∧ c ≠ []

/-- A malformed data-frame payload: single-line, not marker-prefixed, not the
sentinel, and failing to decode with error text e. -/
def badFrame (d e : List Char) : Prop :=
  (∀ x ∈ d, x ≠ '\n') ∧ dataPfx.isPrefixOf d = false ∧ d ≠ doneChars ∧
  gptResponseFromStr d = .error e

/-- The client builder of the end-to-end scenario: temperature 0.8 and
max_tokens 1000. -/
def c1Builder : GptClientBuilder :=
  ((GptClient.builder.api_url ("https://mock.example/v1/chat").data).api_key
      ("secret-key").data).config
    (((GptConfig.builder.temperature (Rat.divInt 8 10)).max_tokens 1000).build)

/-- The mock response body of the end-to-end scenario exactly as the spec
gives it: no index field on the choice. -/
def c1Body : List Char :=
  ("\x7b\"choices\":[\x7b\"message\":\x7b\"content\":\"hello\"\x7d\x7d]\x7d").data

/-- The same mock body with the index field the Choice shape requires. -/
def c1BodyIdx : List Char :=
  ("\x7b\"choices\":[\x7b\"message\":\x7b\"content\":\"hello\"\x7d,\"index\":0\x7d]\x7d").data

/-- Streaming payload whose delta content is the word Hello. -/
def helloD : List Char :=
  ("\x7b\"choices\":[\x7b\"delta\":\x7b\"content\":\"Hello\"\x7d,\"index\":0\x7d]\x7d").data

/-- Streaming payload whose delta content is the word world with a leading
space. -/
def worldD : List Char :=
  ("\x7b\"choices\":[\x7b\"delta\":\x7b\"content\":\" world\"\x7d,\"index\":0\x7d]\x7d").data

/-- Streaming payload whose delta content is the fragment hi. -/
def hiD : List Char :=
  ("\x7b\"choices\":[\x7b\"delta\":\x7b\"content\":\"hi\"\x7d,\"index\":0\x7d]\x7d").data

/-- Streaming payload whose delta content is present but empty. -/
def emptyD : List Char :=
  ("\x7b\"choices\":[\x7b\"delta\":\x7b\"content\":\"\"\x7d,\"index\":0\x7d]\x7d").data


instance (d c : List Char) : Decidable (goodFrame d c) := by
  unfold goodFrame
  exact inferInstance

instance (d e : List Char) : Decidable (badFrame d e) := by
  unfold badFrame
  exact inferInstance

/-- Key lookup on a serialized JSON object, for stating wire-payload
properties. -/
def Json.lookupKey (j : Json) (k : List Char) : Option Json :=
  match j with
  | .obj kvs => jLookup k kvs
  | _ => none

theorem findSplit2_shape : ∀ s m r, findSplit2 s = some (m, r) →
    s = m ++ '\n' :: '\n' :: r := by
  intro s
  induction s with
  | nil => intro m r h; simp [findSplit2] at h
  | cons c cs ih =>
    intro m r h
    rw [findSplit2] at h
    split at h
    · next hc =>
      obtain ⟨hc1, hc2⟩ := hc
      cases cs with
      | nil => simp at hc2
      | cons d ds =>
        simp only [List.head?] at hc2
        injection hc2 with hd
        injection h with h'
        injection h' with hm hr
        subst hc1 hd hm
        simp only [List.tail_cons] at hr
        simp [hr]
    · next hc =>
      cases hfs : findSplit2 cs with
      | none => rw [hfs] at h; simp at h
      | some p =>
        rw [hfs] at h
        simp only [Option.map_some'] at h
        injection h with h'
        injection h' with hm hr
        have hp := ih p.1 p.2 (by rw [hfs])
        subst hr
        rw [← hm, hp]
        simp

theorem findSplit2_append_some : ∀ s e m r, findSplit2 s = some (m, r) →
    findSplit2 (s ++ e) = some (m, r ++ e) := by
  intro s
  induction s with
  | nil => intro e m r h; simp [findSplit2] at h
  | cons c cs ih =>
    intro e m r h
    rw [findSplit2] at h
    rw [List.cons_append, findSplit2]
    split at h
    · next hc =>
      obtain ⟨hc1, hc2⟩ := hc
      cases cs with
      | nil => simp at hc2
      | cons d ds =>
        simp only [List.head?] at hc2
        injection hc2 with hd
        injection h with h'
        injection h' with hm hr
        subst hc1 hd hm
        rw [if_pos (by simp)]
        simp only [List.tail_cons] at hr
        simp [hr]
    · next hc =>
      cases hfs : findSplit2 cs with
      | none => rw [hfs] at h; simp at h
      | some p =>
        rw [hfs] at h
        simp only [Option.map_some'] at h
        injection h with h'
        injection h' with hm hr
        have := findSplit2_shape cs p.1 p.2 (by rw [hfs])
        have hcs : cs ≠ [] := by
          intro hnil; rw [hnil] at this; exact absurd this (by simp)
        rw [if_neg]
        · rw [ih e p.1 p.2 (by rw [hfs])]
          simp [← hm, ← hr]
        · intro hcontra
          obtain ⟨h1, h2⟩ := hcontra
          apply hc
          refine ⟨h1, ?_⟩
          cases cs with
          | nil => exact absurd rfl hcs
          | cons d ds => simpa using h2

theorem noNl_findSplit2 : ∀ msg rest, (∀ x ∈ msg, x ≠ '\n') →
    findSplit2 (msg ++ '\n' :: '\n' :: rest) = some (msg, rest) := by
  intro msg
  induction msg with
  | nil => intro rest _; rw [List.nil_append, findSplit2]; simp
  | cons c cs ih =>
    intro rest h
    rw [List.cons_append, findSplit2, if_neg,
        ih rest (fun x hx => h x (List.mem_cons_of_mem c hx))]
    · simp
    · intro hcontra
      exact h c (List.mem_cons_self c cs) hcontra.1

theorem scanGo_none (fuel : Nat) (buf : List Char) (h : findSplit2 buf = none) :
    scanGo fuel buf = ⟨[], buf, false⟩ := by
  cases fuel with
  | zero => rfl
  | succ f => rw [scanGo, h]

theorem findSplit2_some_length {s m r : List Char} (h : findSplit2 s = some (m, r)) :
    r.length + 2 ≤ s.length := by
  have := findSplit2_shape s m r h
  subst this
  simp

theorem scanGo_fuel : ∀ f g buf, buf.length ≤ f → buf.length ≤ g →
    scanGo f buf = scanGo g buf := by
  intro f
  induction f with
  | zero =>
    intro g buf hf _
    have : buf = [] := List.length_eq_zero.mp (Nat.le_zero.mp hf)
    subst this
    exact (scanGo_none 0 [] rfl).trans (scanGo_none g [] rfl).symm
  | succ f ih =>
    intro g buf hf hg
    cases g with
    | zero =>
      have : buf = [] := List.length_eq_zero.mp (Nat.le_zero.mp hg)
      subst this
      exact (scanGo_none (f+1) [] rfl).trans (scanGo_none 0 [] rfl).symm
    | succ g =>
      cases hfs : findSplit2 buf with
      | none => rw [scanGo_none _ _ hfs, scanGo_none _ _ hfs]
      | some p =>
        obtain ⟨m, r⟩ := p
        have hlen := findSplit2_some_length hfs
        have hrf : r.length ≤ f := by omega
        have hrg : r.length ≤ g := by omega
        rw [scanGo, scanGo, hfs]
        simp only [ih g r hrf hrg]

theorem scanBuffer_of_none {buf : List Char} (h : findSplit2 buf = none) :
    scanBuffer buf = ⟨[], buf, false⟩ := scanGo_none _ _ h

theorem trimGo_not (fuel : Nat) (s : List Char) (h : dataPfx.isPrefixOf s = false) :
    trimGo fuel s = s := by
  cases fuel with
  | zero => rfl
  | succ f => rw [trimGo, h]; simp

theorem isPrefixOf_append_self (l t : List Char) : l.isPrefixOf (l ++ t) = true := by
  induction l with
  | nil => simp [List.isPrefixOf]
  | cons c cs ih => simp [List.isPrefixOf, ih]

theorem trimData_marker (d : List Char) (h : dataPfx.isPrefixOf d = false) :
    trimData (dataPfx ++ d) = d := by
  rw [trimData]
  have hlen : (dataPfx ++ d).length = d.length + 6 := by simp [dataPfx]
  have hpre : dataPfx.isPrefixOf (dataPfx ++ d) = true := isPrefixOf_append_self dataPfx d
  rw [hlen, trimGo, if_pos hpre]
  have hdrop : (dataPfx ++ d).drop 6 = d := by
    have : dataPfx.length = 6 := by decide
    rw [← this, List.drop_left]
  rw [hdrop, trimGo_not _ _ h]

theorem scanBuffer_step {buf m r : List Char} (hfs : findSplit2 buf = some (m, r)) :
    scanBuffer buf =
      (if dataPfx.isPrefixOf m then
        (if trimData m = doneChars then ⟨[], r, true⟩
         else ⟨frameOut (trimData m) ++ (scanBuffer r).outs, (scanBuffer r).rest,
               (scanBuffer r).sawDone⟩)
       else scanBuffer r) := by
  have hlen := findSplit2_some_length hfs
  obtain ⟨n, hn⟩ : ∃ n, buf.length = n + 1 := ⟨buf.length - 1, by omega⟩
  rw [scanBuffer, hn, scanGo, hfs]
  have hfuel : scanGo n r = scanBuffer r :=
    scanGo_fuel n r.length r (by omega) (Nat.le_refl _)
  simp only [hfuel]

theorem scan_append (buf e : List Char) :
    scanBuffer (buf ++ e) =
      (if (scanBuffer buf).sawDone then
        ⟨(scanBuffer buf).outs, (scanBuffer buf).rest ++ e, true⟩
       else
        ⟨(scanBuffer buf).outs ++ (scanBuffer ((scanBuffer buf).rest ++ e)).outs,
         (scanBuffer ((scanBuffer buf).rest ++ e)).rest,
         (scanBuffer ((scanBuffer buf).rest ++ e)).sawDone⟩) := by
  cases hfs : findSplit2 buf with
  | none =>
    rw [scanBuffer_of_none hfs]
    simp
  | some p =>
    obtain ⟨m, r⟩ := p
    have hlen := findSplit2_some_length hfs
    have hfs2 : findSplit2 (buf ++ e) = some (m, r ++ e) :=
      findSplit2_append_some buf e m r hfs
    by_cases hm : dataPfx.isPrefixOf m = true
    · by_cases hd : trimData m = doneChars
      · have hb : scanBuffer buf = ⟨[], r, true⟩ := by
          rw [scanBuffer_step hfs, if_pos hm, if_pos hd]
        rw [hb, scanBuffer_step hfs2, if_pos hm, if_pos hd]
        simp
      · have hb : scanBuffer buf =
            ⟨frameOut (trimData m) ++ (scanBuffer r).outs, (scanBuffer r).rest,
             (scanBuffer r).sawDone⟩ := by
          rw [scanBuffer_step hfs, if_pos hm, if_neg hd]
        rw [hb, scanBuffer_step hfs2, if_pos hm, if_neg hd, scan_append r e]
        by_cases hsd : (scanBuffer r).sawDone = true
        · simp [hsd]
        · simp only [Bool.not_eq_true] at hsd
          simp [hsd, List.append_assoc]
    · simp only [Bool.not_eq_true] at hm
      have hb : scanBuffer buf = scanBuffer r := by
        rw [scanBuffer_step hfs, if_neg (by simp [hm])]
      rw [hb, scanBuffer_step hfs2, if_neg (by simp [hm])]
      exact scan_append r e
termination_by buf.length
decreasing_by
  all_goals omega

theorem scan_rest_none (buf : List Char) ( h : (scanBuffer buf).sawDone = false) :
    findSplit2 (scanBuffer buf).rest = none := by
  cases hfs : findSplit2 buf with
  | none => rw [scanBuffer_of_none hfs]; exact hfs
  | some p =>
    obtain ⟨m, r⟩ := p
    have hlen := findSplit2_some_length hfs
    by_cases hm : dataPfx.isPrefixOf m = true
    · by_cases hd : trimData m = doneChars
      · have hb : scanBuffer buf = ⟨[], r, true⟩ := by
          rw [scanBuffer_step hfs, if_pos hm, if_pos hd]
        rw [hb] at h
        simp at h
      · have hb : scanBuffer buf =
            ⟨frameOut (trimData m) ++ (scanBuffer r).outs, (scanBuffer r).rest,
             (scanBuffer r).sawDone⟩ := by
          rw [scanBuffer_step hfs, if_pos hm, if_neg hd]
        rw [hb] at h ⊢
        exact scan_rest_none r h
    · simp only [Bool.not_eq_true] at hm
      have hb : scanBuffer buf = scanBuffer r := by
        rw [scanBuffer_step hfs, if_neg (by simp [hm])]
      rw [hb] at h ⊢
      exact scan_rest_none r h
termination_by buf.length
decreasing_by
  all_goals omega

theorem runChunks_eq_scan (chunks : List (List Char)) : ∀ buf,
    findSplit2 buf = none →
    (scanBuffer (buf ++ chunks.flatten)).sawDone = false →
    runChunks buf chunks = (scanBuffer (buf ++ chunks.flatten)).outs := by
  induction chunks with
  | nil =>
    intro buf h1 _
    rw [List.flatten, List.append_nil, scanBuffer_of_none h1]
    rfl
  | cons c cs ih =>
    intro buf h1 h2
    rw [show (c :: cs).flatten = c ++ cs.flatten from rfl, ← List.append_assoc] at h2 ⊢
    have hsplit := scan_append (buf ++ c) cs.flatten
    have hnd : (scanBuffer (buf ++ c)).sawDone = false := by
      by_cases hx : (scanBuffer (buf ++ c)).sawDone = true
      · rw [hsplit, if_pos hx] at h2
        simp at h2
      · simpa using hx
    rw [hsplit, if_neg (by simp [hnd])] at h2 ⊢
    simp only [runChunks]
    have hrest := scan_rest_none (buf ++ c) hnd
    have hsd2 : (scanBuffer ((scanBuffer (buf ++ c)).rest ++ cs.flatten)).sawDone = false := by
      simpa using h2
    rw [ih (scanBuffer (buf ++ c)).rest hrest hsd2]

theorem frameOut_bad {d e : List Char} (h : gptResponseFromStr d = .error e) :
    frameOut d = [Except.error (GptError.ParseError e)] := by
  simp only [frameOut]
  rw [h]

theorem frameOut_good {d c : List Char}
    (h : (gptResponseFromStr d).toOption.bind deltaContent = some c) (hc : c ≠ []) :
    frameOut d = [Except.ok c] := by
  cases hr : gptResponseFromStr d with
  | error e => rw [hr] at h; simp [Except.toOption] at h
  | ok r =>
    rw [hr] at h
    simp only [Except.toOption, Option.some_bind] at h
    simp only [frameOut, hr]
    cases hh : r.choices.head? with
    | none => simp only [deltaContent, hh, Option.none_bind] at h; cases h
    | some ch =>
      cases hd : ch.delta with
      | none =>
        simp only [deltaContent, hh, Option.some_bind, hd, Option.none_bind] at h
        cases h
      | some dl =>
        cases hcont : dl.content with
        | none =>
          simp only [deltaContent, hh, Option.some_bind, hd, hcont] at h
          cases h
        | some cont =>
          simp only [deltaContent, hh, Option.some_bind, hd, hcont] at h
          injection h with h'
          subst h'
          simp only [hh, hd, hcont]
          rw [if_neg hc]

theorem frameOut_quiet {d : List Char} {r : GptResponse} (hr : gptResponseFromStr d = .ok r)
    (h : deltaContent r = none ∨ deltaContent r = some []) :
    frameOut d = [] := by
  simp only [frameOut, hr]
  cases hh : r.choices.head? with
  | none => simp
  | some ch =>
    cases hd : ch.delta with
    | none => simp [hd]
    | some dl =>
      cases hcont : dl.content with
      | none => simp [hd, hcont]
      | some cont =>
        simp only [deltaContent, hh, Option.some_bind, hd, hcont] at h
        rcases h with h | h
        · cases h
        · injection h with h'
          subst h'
          simp [hd, hcont]

theorem scanBuffer_frame (d rest : List Char) (hn : ∀ x ∈ d, x ≠ '\n')
    (hp : dataPfx.isPrefixOf d = false) (hs : d ≠ doneChars) :
    scanBuffer (mkFrame d ++ rest) =
      ⟨frameOut d ++ (scanBuffer rest).outs, (scanBuffer rest).rest,
       (scanBuffer rest).sawDone⟩ := by
  have hdp : ∀ x ∈ dataPfx, x ≠ '\n' := by decide
  have hnl : ∀ x ∈ dataPfx ++ d, x ≠ '\n' := by
    intro x hx
    cases List.mem_append.mp hx with
    | inl h2 => exact hdp x h2
    | inr h2 => exact hn x h2
  have hfs : findSplit2 (mkFrame d ++ rest) = some (dataPfx ++ d, rest) := by
    have hshape : mkFrame d ++ rest = (dataPfx ++ d) ++ '\n' :: '\n' :: rest := by
      rw [mkFrame]; simp
    rw [hshape]
    exact noNl_findSplit2 _ rest hnl
  have hpre : dataPfx.isPrefixOf (dataPfx ++ d) = true := isPrefixOf_append_self dataPfx d
  rw [scanBuffer_step hfs, trimData_marker d hp, if_pos hpre, if_neg hs]

theorem scanBuffer_sentinel (rest : List Char) :
    scanBuffer (mkFrame doneChars ++ rest) = ⟨[], rest, true⟩ := by
  have hnl : ∀ x ∈ dataPfx ++ doneChars, x ≠ '\n' := by decide
  have hfs : findSplit2 (mkFrame doneChars ++ rest) = some (dataPfx ++ doneChars, rest) := by
    have hshape : mkFrame doneChars ++ rest = (dataPfx ++ doneChars) ++ '\n' :: '\n' :: rest := by
      rw [mkFrame]; simp
    rw [hshape]
    exact noNl_findSplit2 _ rest hnl
  have hpre : dataPfx.isPrefixOf (dataPfx ++ doneChars) = true := by decide
  have htrim : trimData (dataPfx ++ doneChars) = doneChars :=
    trimData_marker doneChars (by decide)
  rw [scanBuffer_step hfs, htrim, if_pos hpre, if_pos rfl]

theorem scan_goodFrames : ∀ ds cs : List (List Char), List.Forall₂ goodFrame ds cs →
    scanBuffer (ds.map mkFrame).flatten = ⟨cs.map Except.ok, [], false⟩ := by
  intro ds cs h
  induction h with
  | nil => rfl
  | @cons d c ds' cs' hdc htail ih =>
    obtain ⟨hn, hp, hs, hsome, hne⟩ := hdc
    rw [List.map_cons, List.flatten_cons, scanBuffer_frame d _ hn hp hs, ih,
        frameOut_good hsome hne]
    simp

/-- C3: for every sequence of well-formed SSE data frames carrying non-empty
delta content, however the frame bytes are chunked, the decoder delivers the
content fragments in exactly the frame order, one fragment per frame, never
merged and never reordered. -/
theorem c3_stream_order (chunks ds cs : List (List Char))
    (hf : List.Forall₂ goodFrame ds cs)
    (hc : chunks.flatten = (ds.map mkFrame).flatten) :
    runChunks [] chunks = cs.map Except.ok := by
  have hscan := scan_goodFrames ds cs hf
  have h2 : (scanBuffer ([] ++ chunks.flatten)).sawDone = false := by
    rw [List.nil_append, hc, hscan]
  rw [runChunks_eq_scan chunks [] rfl h2, List.nil_append, hc, hscan]

/-- C3 witness: two frames carrying Hello and world arrive in one chunk and
come out as exactly those two fragments in order. -/
theorem c3_stream_order_witness :
    runChunks [] [mkFrame helloD ++ mkFrame worldD]
      = [Except.ok ("Hello").data, Except.ok (" world").data] := by
  have hf : List.Forall₂ goodFrame [helloD, worldD] [("Hello").data, (" world").data] :=
    List.Forall₂.cons (by decide) (List.Forall₂.cons (by decide) List.Forall₂.nil)
  exact c3_stream_order [mkFrame helloD ++ mkFrame worldD] [helloD, worldD]
    [("Hello").data, (" world").data] hf (by simp)

/-- C4 counterexample: a body whose single chunk is a malformed frame, then
the sentinel, then a well-formed frame carrying hi. The consumer receives the
one ParseError but never the hi fragment, so the claim that every subsequent
well-formed frame of the body is still delivered fails as stated. -/
theorem c4_counterexample :
    runChunks [] [mkFrame ("notjson").data ++ mkFrame doneChars ++ mkFrame hiD]
        = [Except.error (GptError.ParseError ("invalid JSON").data)] ∧
    ¬ Except.ok ("hi").data ∈
        runChunks [] [mkFrame ("notjson").data ++ mkFrame doneChars ++ mkFrame hiD] := by
  constructor
  · decide
  · decide

/-- C4 amended: a malformed frame payload yields exactly one ParseError on the
consumer channel, and every subsequent well-formed frame with no intervening
sentinel frame is still delivered afterwards; one bad frame does not abort the
decode loop. -/
theorem c4_amended (bad e : List Char) (ds cs : List (List Char))
    (hb : badFrame bad e) (hf : List.Forall₂ goodFrame ds cs) :
    runChunks [] [mkFrame bad ++ (ds.map mkFrame).flatten]
      = Except.error (GptError.ParseError e) :: cs.map Except.ok := by
  obtain ⟨hn, hp, hs, herr⟩ := hb
  simp only [runChunks, List.nil_append]
  rw [scanBuffer_frame bad _ hn hp hs, scan_goodFrames ds cs hf, frameOut_bad herr]
  simp

/-- C4 amended witness: a malformed frame followed by a well-formed hi frame
produces the ParseError and then the hi fragment. -/
theorem c4_amended_witness :
    runChunks [] [mkFrame ("notjson").data ++ (([hiD]).map mkFrame).flatten]
      = Except.error (GptError.ParseError ("invalid JSON").data)
          :: [("hi").data].map Except.ok := by
  exact c4_amended ("notjson").data ("invalid JSON").data [hiD] [("hi").data]
    (by decide) (List.Forall₂.cons (by decide) List.Forall₂.nil)

/-- C5 counterexample: the sentinel frame arrives in one chunk and a
well-formed frame carrying hi arrives in the next chunk of the same body; the
decoder still emits the hi fragment, so the claim that nothing is ever emitted
after the sentinel fails as stated. -/
theorem c5_counterexample :
    runChunks [] [mkFrame doneChars, mkFrame hiD] = [Except.ok ("hi").data] := by
  decide

/-- C5 amended: seeing the sentinel ends frame processing for the current
chunk scan only: whatever follows the sentinel frame in that final chunk, the
decoder emits nothing more when no further chunk arrives. Frames arriving in
later chunks are still processed, as the counterexample shows. -/
theorem c5_amended (rest : List Char) :
    runChunks [] [mkFrame doneChars ++ rest] = [] := by
  simp only [runChunks, List.nil_append]
  rw [scanBuffer_sentinel]
  simp [runChunks]

/-- C6: a well-formed data frame whose decoded payload has no first-choice
delta content, or empty content, contributes no item at all to the consumer
channel: scanning the frame is the same as never having received it. -/
theorem c6_empty_delta (d rest : List Char) (r : GptResponse)
    (hn : ∀ x ∈ d, x ≠ '\n') (hp : dataPfx.isPrefixOf d = false) (hs : d ≠ doneChars)
    (hr : gptResponseFromStr d = .ok r)
    (h : deltaContent r = none ∨ deltaContent r = some []) :
    scanBuffer (mkFrame d ++ rest) = scanBuffer rest := by
  rw [scanBuffer_frame d rest hn hp hs, frameOut_quiet hr h]
  simp only [List.nil_append]

/-- C6 witness: a frame whose delta content is the empty string emits
nothing. -/
theorem c6_empty_delta_witness :
    scanBuffer (mkFrame emptyD ++ []) = scanBuffer [] := by
  exact c6_empty_delta emptyD [] ⟨none, [⟨none, some ⟨some [], none⟩, none, 0⟩]⟩
    (by decide) rfl (by decide) rfl (Or.inr rfl)

/-- C7: when a frame is split across two UTF-8-valid chunks so that the
double-newline terminator itself straddles the boundary, the decoder produces
exactly the same channel items as if the whole frame had arrived in one
chunk. -/
theorem c7_split_terminator (f rest : List Char) (h : findSplit2 (f ++ ['\n']) = none) :
    runChunks [] [f ++ ['\n'], '\n' :: rest] = runChunks [] [f ++ '\n' :: '\n' :: rest] := by
  simp only [runChunks, List.nil_append]
  rw [scanBuffer_of_none h]
  have heq : (f ++ ['\n']) ++ '\n' :: rest = f ++ '\n' :: '\n' :: rest := by simp
  rw [heq]
  simp

/-- C7 witness: the Hello frame split right inside its terminator is decoded
once both chunks have arrived, exactly as in one chunk. -/
theorem c7_split_terminator_witness :
    runChunks [] [(dataPfx ++ helloD) ++ ['\n'], '\n' :: []]
      = runChunks [] [(dataPfx ++ helloD) ++ '\n' :: '\n' :: []] :=
  c7_split_terminator (dataPfx ++ helloD) [] (by decide)

/-- C8: on a 2xx response whose body decodes as a GptResponse, ask fails with
the no-content ParseError whenever the choices sequence is empty or the first
choice has no message, and returns exactly the first message's content when it
is present; being a total function it can neither panic nor return anything
else. -/
theorem c8_ask_errors (c : GptClient) (msg : List Char) (status : Nat) (body : List Char)
    (r : GptResponse) (hs : 200 ≤ status ∧ status ≤ 299)
    (hr : gptResponseFromStr body = .ok r) :
    ((r.choices = [] ∨ ∃ ch, r.choices.head? = some ch ∧ ch.message = none) →
      c.ask msg status body
        = .error (.ParseError ("No response content available").data)) ∧
    (∀ ch m, r.choices.head? = some ch → ch.message = some m →
      c.ask msg status body = .ok m.content) := by
  constructor
  · intro h
    have hnone : r.choices.head?.bind (fun ch => ch.message.map (fun m => m.content))
        = none := by
      rcases h with h | ⟨ch, hh, hm⟩
      · simp [h]
      · simp [hh, hm]
    simp [GptClient.ask, hs, hr, hnone]
  · intro ch m hh hm
    have hsome : r.choices.head?.bind (fun ch => ch.message.map (fun m => m.content))
        = some m.content := by
      simp [hh, hm]
    simp [GptClient.ask, hs, hr, hsome]

/-- C8 witness: a 2xx body with an empty choices sequence makes ask fail with
the no-content ParseError. -/
theorem c8_ask_errors_witness :
    (⟨[], [], GptConfig.default⟩ : GptClient).ask [] 200 ("\x7b\"choices\":[]\x7d").data
      = .error (.ParseError ("No response content available").data) :=
  (c8_ask_errors ⟨[], [], GptConfig.default⟩ [] 200 ("\x7b\"choices\":[]\x7d").data
    ⟨none, []⟩ (by decide) (by decide)).1 (Or.inl rfl)

/-- C1 counterexample: with the client built with temperature 0.8 and
max_tokens 1000, asking hi against a 2xx endpoint answering exactly the body
of the scenario makes ask fail with a missing-field ParseError, because the
Choice shape requires the index field the body omits; it does not return
hello. -/
theorem c1_counterexample :
    (c1Builder.build).map (fun cl => cl.ask ("hi").data 200 c1Body)
        = Except.ok (Except.error (GptError.ParseError ("missing field index").data)) ∧
    (c1Builder.build).map (fun cl => cl.ask ("hi").data 200 c1Body)
        ≠ Except.ok (Except.ok ("hello").data) := by
  constructor
  · decide
  · decide

/-- C1 amended: the same scenario returns exactly hello once the body carries
the required index field on its first choice; the built client does carry
temperature 0.8 and max_tokens 1000. -/
theorem c1_amended :
    (c1Builder.build).map (fun cl => cl.ask ("hi").data 200 c1BodyIdx)
        = Except.ok (Except.ok ("hello").data) ∧
    (c1Builder.build).map (fun cl => cl.config.temperature)
        = Except.ok (Rat.divInt 8 10) ∧
    (c1Builder.build).map (fun cl => cl.config.max_tokens) = Except.ok 1000 := by
  refine ⟨by decide, by decide, by decide⟩

/-- C2 counterexample: the max_tokens setter stores the raw value unchanged,
so the input 0 yields a built configuration whose max_tokens is 0, which is
not a positive integer and was not saturated to any bound. -/
theorem c2_counterexample :
    ((GptConfig.builder.max_tokens 0).build).max_tokens = 0 ∧
    ¬ 0 < ((GptConfig.builder.max_tokens 0).build).max_tokens := by
  decide

theorem le_clampQ (x lo hi : ℚ) : lo ≤ clampQ x lo hi := le_max_left lo (min x hi)

theorem clampQ_le {x lo hi : ℚ} (h : lo ≤ hi) : clampQ x lo hi ≤ hi :=
  max_le h (min_le_right x hi)

/-- C2 amended: every float-valued field of the built configuration lies in
its documented range whatever raw values the setters receive, silently
saturated and never rejected; max_tokens is stored unchanged as given, a
non-negative integer not constrained to be positive. -/
theorem c2_amended (t tp fp pp : ℚ) (mt : Nat) (cfg : GptConfig)
    (hcfg : cfg = ((((((GptConfig.builder).temperature t).max_tokens mt).top_p
        tp).frequency_penalty fp).presence_penalty pp).build) :
    (0 ≤ cfg.temperature ∧ cfg.temperature ≤ 2) ∧
    (0 ≤ cfg.top_p ∧ cfg.top_p ≤ 1) ∧
    (-2 ≤ cfg.frequency_penalty ∧ cfg.frequency_penalty ≤ 2) ∧
    (-2 ≤ cfg.presence_penalty ∧ cfg.presence_penalty ≤ 2) ∧
    cfg.max_tokens = mt := by
  subst hcfg
  exact ⟨⟨le_clampQ t 0 2, clampQ_le (by norm_num)⟩,
    ⟨le_clampQ tp 0 1, clampQ_le (by norm_num)⟩,
    ⟨le_clampQ fp (-2) 2, clampQ_le (by norm_num)⟩,
    ⟨le_clampQ pp (-2) 2, clampQ_le (by norm_num)⟩, rfl⟩

/-- C2 amended witness: out-of-range raw inputs 5, 3, 7, -9 and max_tokens 0
build a configuration whose float fields are saturated into range and whose
max_tokens is the raw 0. -/
theorem c2_amended_witness :
    (0 ≤ ((((((GptConfig.builder).temperature 5).max_tokens 0).top_p
        3).frequency_penalty 7).presence_penalty (-9)).build.temperature ∧
      ((((((GptConfig.builder).temperature 5).max_tokens 0).top_p
        3).frequency_penalty 7).presence_penalty (-9)).build.temperature ≤ 2) ∧
    (0 ≤ ((((((GptConfig.builder).temperature 5).max_tokens 0).top_p
        3).frequency_penalty 7).presence_penalty (-9)).build.top_p ∧
      ((((((GptConfig.builder).temperature 5).max_tokens 0).top_p
        3).frequency_penalty 7).presence_penalty (-9)).build.top_p ≤ 1) ∧
    (-2 ≤ ((((((GptConfig.builder).temperature 5).max_tokens 0).top_p
        3).frequency_penalty 7).presence_penalty (-9)).build.frequency_penalty ∧
      ((((((GptConfig.builder).temperature 5).max_tokens 0).top_p
        3).frequency_penalty 7).presence_penalty (-9)).build.frequency_penalty ≤ 2) ∧
    (-2 ≤ ((((((GptConfig.builder).temperature 5).max_tokens 0).top_p
        3).frequency_penalty 7).presence_penalty (-9)).build.presence_penalty ∧
      ((((((GptConfig.builder).temperature 5).max_tokens 0).top_p
        3).frequency_penalty 7).presence_penalty (-9)).build.presence_penalty ≤ 2) ∧
    ((((((GptConfig.builder).temperature 5).max_tokens 0).top_p
        3).frequency_penalty 7).presence_penalty (-9)).build.max_tokens = 0 :=
  c2_amended 5 3 7 (-9) 0 _ rfl

/-- C9: serializing a request built with no stop sequences omits the stop key
entirely, and serializing one built with the stop sequences x and y carries
them as the ordered array of those two strings. -/
theorem c9_stop_serialization (url key msg : List Char) (t tp fp pp : ℚ) (mt : Nat) :
    Json.lookupKey
        (GptRequest.toJson (GptClient.build_request ⟨url, key, ⟨t, mt, tp, fp, pp, none⟩⟩ msg))
        (("stop").data) = none ∧
    Json.lookupKey
        (GptRequest.toJson (GptClient.build_request
          ⟨url, key, ⟨t, mt, tp, fp, pp, some [("x").data, ("y").data]⟩⟩ msg))
        (("stop").data)
      = some (Json.arr [Json.str ("x").data, Json.str ("y").data]) :=
  ⟨rfl, rfl⟩

/-- C10: a client builder given only an api_url and an api_key builds
successfully with the default configuration, and every request body it
assembles carries the default sampling values: temperature 0.7, max_tokens
800, top_p 0.95, zero penalties and no stop sequences. -/
theorem c10_default_config (url key msg : List Char) :
    ((GptClient.builder.api_url url).api_key key).build
        = Except.ok ⟨url, key, GptConfig.default⟩ ∧
    (GptClient.build_request ⟨url, key, GptConfig.default⟩ msg).temperature
        = Rat.divInt 7 10 ∧
    (GptClient.build_request ⟨url, key, GptConfig.default⟩ msg).max_tokens = 800 ∧
    (GptClient.build_request ⟨url, key, GptConfig.default⟩ msg).top_p = Rat.divInt 95 100 ∧
    (GptClient.build_request ⟨url, key, GptConfig.default⟩ msg).frequency_penalty = 0 ∧
    (GptClient.build_request ⟨url, key, GptConfig.default⟩ msg).presence_penalty = 0 ∧
    (GptClient.build_request ⟨url, key, GptConfig.default⟩ msg).stop = none := by
  refine ⟨rfl, rfl, rfl, ?_, ?_, ?_, ?_⟩ <;> rfl
